import Mathlib

set_option maxRecDepth 8000

/-!
Verification of a custom 32-bit ISA toolchain: an execution engine
(`VM.cpp`, class `VirtualMachine`) and a two-pass assembler
(`assembler.cpp`, class `Assembler`).  The C++ sources are shallowly
embedded: `uint32_t` values become `Nat` with explicit `% 2^32` at every
operation where the source wraps, `int` / `int16_t` intermediates become
`Int`, fallible operations (C++ `throw`) return `Except`, and
`std::string` becomes `List Char`.
-/

/-! ## Machine integer helpers -/

/-- Conversion of a C++ `int` expression to `uint32_t` (two's complement
wrap, i.e. reduction mod 2^32). -/
def intToUInt32 (z : Int) : Nat := (z % (2 ^ 32 : Int)).toNat

/-- Conversion of a value already reduced below 2^16 to a C++ `int16_t`
read back as a signed integer (two's complement). -/
def toSigned16 (n : Nat) : Int :=
  if n % 65536 < 32768 then ((n % 65536 : Nat) : Int)
  else ((n % 65536 : Nat) : Int) - 65536

/-- Bitwise complement `~x` on `uint32_t` (operand assumed `< 2^32`). -/
def not32 (x : Nat) : Nat := x ^^^ 0xFFFFFFFF

/-! ## VM constants (VM.cpp lines 11-13) -/

def NUM_REGISTERS : Nat := 32
def MEMORY_SIZE : Nat := 0x00100000
def DATA_SECTION_START : Nat := 0x10000000

/-- Size of the `memory` vector: `vector<uint32_t> memory(MEMORY_SIZE / 4)`
(VM.cpp line 245), i.e. the number of valid word indices. -/
def memWords : Nat := MEMORY_SIZE / 4

/-! ## Instruction decoding (VM.cpp lines 21-49) -/

def getOpcode (instruction : Nat) : Nat := (instruction >>> 26) &&& 0x3F
def getRd (instruction : Nat) : Nat := (instruction >>> 21) &&& 0x1F
def getRs (instruction : Nat) : Nat := (instruction >>> 16) &&& 0x1F
def getRt (instruction : Nat) : Nat := (instruction >>> 11) &&& 0x1F

/-- `int16_t getImmediate` truncates the low 16 bits to a signed 16-bit
value. -/
def getImmediate (instruction : Nat) : Int := toSigned16 (instruction &&& 0xFFFF)

def getJumpAddress (instruction : Nat) : Nat := instruction &&& 0x3FFFFFF

/-! ## Errors raised by the VM (each `throw runtime_error(...)` site) -/

inductive VMError where
  | memOutOfBounds (address : Nat)
  | divByZero
  | pcOutOfBounds
  | invalidOpcode (opcode : Nat)
deriving DecidableEq, Repr

/-! ## VM state

`memory` is modelled as a total function on word indices; the C++ vector
has `memWords` entries and `memory[i]` for `i ≥ memWords` is an unchecked
out-of-bounds access (undefined behavior), which the model reads from the
same total function. -/

structure VMState where
  mem : Nat → Nat
  regs : Nat → Nat
  pc : Nat
  running : Bool

def regWrite (regs : Nat → Nat) (i v : Nat) : Nat → Nat :=
  fun j => if j = i then v else regs j

/-! ## Memory access with address translation (VM.cpp lines 52-80) -/

def readMemory (mem : Nat → Nat) (address : Nat) : Except VMError Nat :=
  let address :=
    if address ≥ DATA_SECTION_START then
      (address - DATA_SECTION_START) + (MEMORY_SIZE / 2)
    else address
  if address ≥ MEMORY_SIZE * 4 then .error (.memOutOfBounds address)
  else .ok (mem (address / 4))

def writeMemory (mem : Nat → Nat) (address value : Nat) :
    Except VMError (Nat → Nat) :=
  let address :=
    if address ≥ DATA_SECTION_START then
      (address - DATA_SECTION_START) + (MEMORY_SIZE / 2)
    else address
  if address ≥ MEMORY_SIZE * 4 then .error (.memOutOfBounds address)
  else .ok (fun i => if i = address / 4 then value else mem i)

/-! ## R-type execution (VM.cpp lines 82-135) -/

def executeRType (s : VMState) (instruction : Nat) : Except VMError VMState :=
  let rd := getRd instruction
  let rs := getRs instruction
  let rt := getRt instruction
  match getOpcode instruction with
  | 0 => .ok { s with regs := regWrite s.regs rd ((s.regs rs + s.regs rt) % 2 ^ 32) }
  | 1 => .ok { s with regs := regWrite s.regs rd (intToUInt32 ((s.regs rs : Int) - s.regs rt)) }
  | 2 => .ok { s with regs := regWrite s.regs rd ((s.regs rs * s.regs rt) % 2 ^ 32) }
  | 3 =>
    if s.regs rt = 0 then .error .divByZero
    else .ok { s with regs := regWrite s.regs rd (s.regs rs / s.regs rt) }
  | 4 => .ok { s with regs := regWrite s.regs rd (not32 (s.regs rs)) }
  | 5 => .ok { s with regs := regWrite s.regs rd (s.regs rs &&& s.regs rt) }
  | 6 => .ok { s with regs := regWrite s.regs rd (not32 (s.regs rs &&& s.regs rt)) }
  | 7 => .ok { s with regs := regWrite s.regs rd (s.regs rs ||| s.regs rt) }
  | 8 => .ok { s with regs := regWrite s.regs rd (s.regs rs ^^^ s.regs rt) }
  | 9 => .ok { s with regs := regWrite s.regs rd (not32 (s.regs rs ^^^ s.regs rt)) }
  | 10 => .ok { s with regs := regWrite s.regs rd (s.regs rs) }
  | 11 => .ok { s with regs := regWrite s.regs rd (if s.regs rs > s.regs rt then 1 else 0) }
  | 12 => .ok { s with regs := regWrite s.regs rd (if s.regs rs < s.regs rt then 1 else 0) }
  | 13 => .ok { s with regs := regWrite s.regs rd ((s.regs rs * s.regs rt + s.regs rd) % 2 ^ 32) }
  | _ => .ok s

/-! ## I-type execution (VM.cpp lines 137-202) -/

def executeIType (s : VMState) (instruction : Nat) : Except VMError VMState :=
  let rd := getRd instruction
  let rs := getRs instruction
  let imm := getImmediate instruction
  match getOpcode instruction with
  | 14 => .ok { s with regs := regWrite s.regs rd (intToUInt32 ((s.regs rs : Int) + imm)) }
  | 15 => .ok { s with regs := regWrite s.regs rd (intToUInt32 ((s.regs rs : Int) - imm)) }
  | 16 => .ok { s with regs := regWrite s.regs rd (intToUInt32 ((s.regs rs : Int) * imm)) }
  | 17 =>
    if imm = 0 then .error .divByZero
    else .ok { s with regs := regWrite s.regs rd (s.regs rs / intToUInt32 imm) }
  | 18 => .ok { s with regs := regWrite s.regs rd (s.regs rs &&& intToUInt32 imm) }
  | 19 => .ok { s with regs := regWrite s.regs rd (not32 (s.regs rs &&& intToUInt32 imm)) }
  | 20 => .ok { s with regs := regWrite s.regs rd (s.regs rs ||| intToUInt32 imm) }
  | 21 => .ok { s with regs := regWrite s.regs rd (s.regs rs ^^^ intToUInt32 imm) }
  | 22 =>
    match readMemory s.mem (intToUInt32 ((s.regs rs : Int) + imm)) with
    | .error e => .error e
    | .ok v => .ok { s with regs := regWrite s.regs rd v }
  | 23 =>
    match writeMemory s.mem (intToUInt32 ((s.regs rs : Int) + imm)) (s.regs rd) with
    | .error e => .error e
    | .ok m => .ok { s with mem := m }
  | 24 =>
    match readMemory s.mem (intToUInt32 ((s.regs rs : Int) + imm)) with
    | .error e => .error e
    | .ok v => .ok { s with regs := regWrite s.regs rd (v &&& 0xFF) }
  | 25 =>
    match writeMemory s.mem (intToUInt32 ((s.regs rs : Int) + imm)) (s.regs rd &&& 0xFF) with
    | .error e => .error e
    | .ok m => .ok { s with mem := m }
  | 26 =>
    if s.regs rd = s.regs rs then
      .ok { s with pc := intToUInt32 ((s.pc : Int) + (imm - 4) * 4) }
    else .ok s
  | 27 =>
    if s.regs rd ≠ s.regs rs then
      .ok { s with pc := intToUInt32 ((s.pc : Int) + imm * 4) }
    else .ok s
  | 28 => .ok { s with regs := regWrite s.regs rd 0 }
  | 31 => .ok { s with running := false }
  | _ => .ok s

/-! ## J-type execution (VM.cpp lines 204-220); never faults -/

def executeJType (s : VMState) (instruction : Nat) : VMState :=
  let address := getJumpAddress instruction
  match getOpcode instruction with
  | 29 =>
    let pc1 : Nat := (address * 4) % 2 ^ 32
    { s with pc := intToUInt32 ((pc1 : Int) - 8) }
  | 30 =>
    let s1 := { s with regs := regWrite s.regs 31 ((s.pc + 4) % 2 ^ 32) }
    let pc1 : Nat := (address * 4) % 2 ^ 32
    { s1 with pc := intToUInt32 ((pc1 : Int) - 4) }
  | _ => s

/-! ## The fetch-decode-execute loop (VM.cpp `run`, lines 275-332)

One iteration either completes (`next`: the instruction retired, `pc += 4`
and `registers[0] = 0` were applied), or a fault thrown inside the `try`
block is caught (`caught`: diagnostic printed, `running = false`, `break`),
or the program-counter bounds check at the top of the loop throws an
exception that is NOT inside the `try` block and therefore escapes `run`
(`thrown`). -/

def execDispatch (s : VMState) (instruction : Nat) : Except VMError VMState :=
  let opcode := getOpcode instruction
  if opcode ≤ 13 then executeRType s instruction
  else if opcode ≤ 28 ∨ opcode = 31 then executeIType s instruction
  else if opcode ≤ 30 then .ok (executeJType s instruction)
  else .error (.invalidOpcode opcode)

inductive IterResult where
  | next (s : VMState)
  | caught (e : VMError) (pcAt : Nat) (s : VMState)
  | thrown (e : VMError)

def loopIter (s : VMState) : IterResult :=
  if s.pc / 4 ≥ memWords then .thrown .pcOutOfBounds
  else
    match execDispatch s (s.mem (s.pc / 4)) with
    | .error e => .caught e s.pc { s with running := false }
    | .ok s1 => .next { s1 with pc := (s1.pc + 4) % 2 ^ 32, regs := regWrite s1.regs 0 0 }

inductive RunResult where
  | halted (s : VMState)
  | faulted (e : VMError) (pcAt : Nat) (s : VMState)
  | thrown (e : VMError)
  | fuelOut (s : VMState)

def runLoop : Nat → VMState → RunResult
  | 0, s => .fuelOut s
  | Nat.succ fuel, s =>
    if s.running then
      match loopIter s with
      | .thrown e => .thrown e
      | .caught e pcAt s1 => .faulted e pcAt s1
      | .next s1 => runLoop fuel s1
    else .halted s

/-- `run` resets `pc` to 0, sets `running`, and loops; `fuel` bounds the
number of iterations of the C++ `while` loop. -/
def run (s : VMState) (fuel : Nat) : RunResult :=
  runLoop fuel { s with pc := 0, running := true }

/-- Discriminator: did the iteration retire its instruction normally? -/
def isNext : IterResult → Bool
  | .next _ => true
  | _ => false

/-- The state carried by an iteration result (dummy state for `thrown`,
which carries none in the source either: the exception escapes). -/
def iterState : IterResult → VMState
  | .next s1 => s1
  | .caught _ _ s1 => s1
  | .thrown _ => ⟨fun _ => 0, fun _ => 0, 0, false⟩

/-! ## Assembler: errors (each `throw runtime_error` / uncaught `stoi`) -/

inductive AsmError where
  | invalidRegister (tok : List Char)
  | stoiFailure (tok : List Char)
  | unknownLabel (tok : List Char)
  | unknownInstruction (op : List Char)
deriving DecidableEq, Repr

/-! ## Assembler: instruction table (assembler.cpp lines 13-80) -/

inductive InstructionType where
  | R_TYPE
  | I_TYPE
  | J_TYPE
deriving DecidableEq, Repr

structure Instruction where
  name : List Char
  type : InstructionType
  opcode : Nat
deriving DecidableEq, Repr

def entry (n : String) (t : InstructionType) (o : Nat) : List Char × Instruction :=
  (n.toList, ⟨n.toList, t, o⟩)

def instructions : List (List Char × Instruction) :=
  [ entry "ADD" .R_TYPE 0
  , entry "SUB" .R_TYPE 1
  , entry "MUL" .R_TYPE 2
  , entry "DIV" .R_TYPE 3
  , entry "INV" .R_TYPE 4
  , entry "AND" .R_TYPE 5
  , entry "NAND" .R_TYPE 6
  , entry "OR" .R_TYPE 7
  , entry "XOR" .R_TYPE 8
  , entry "XNOR" .R_TYPE 9
  , entry "MOV" .R_TYPE 10
  , entry "SGT" .R_TYPE 11
  , entry "SLT" .R_TYPE 12
  , entry "MA" .R_TYPE 13
  , entry "ADDI" .I_TYPE 14
  , entry "SUBI" .I_TYPE 15
  , entry "MULI" .I_TYPE 16
  , entry "DIVI" .I_TYPE 17
  , entry "INVI" .I_TYPE 18
  , entry "ANDI" .I_TYPE 19
  , entry "NANDI" .I_TYPE 20
  , entry "ORI" .I_TYPE 21
  , entry "XORI" .I_TYPE 22
  , entry "XNORI" .I_TYPE 23
  , entry "MOVI" .I_TYPE 24
  , entry "SGTI" .I_TYPE 25
  , entry "SLTI" .I_TYPE 26
  , entry "MAI" .I_TYPE 27
  , entry "EXT" .I_TYPE 31
  , entry "JUMP" .J_TYPE 29
  , entry "JAL" .J_TYPE 30 ]

/-- `instructions.find(op)` on the `std::map`: lookup by exact key. -/
def findInstr (m : List Char) : Option Instruction :=
  (instructions.find? (fun p => p.1 == m)).map (fun p => p.2)

/-- `instructions[op]` via `map::operator[]`: a missing key
default-constructs an entry (empty name, `R_TYPE`, opcode 0). -/
def mapIdx (m : List Char) : Instruction :=
  (findInstr m).getD ⟨[], .R_TYPE, 0⟩

/-! ## Characters and numeric parsing -/

/-- C `isspace` on the default locale. -/
def isSpaceChar (c : Char) : Bool :=
  c == ' ' || c == '\t' || c == '\n' || c == '\x0b' || c == '\x0c' || c == '\r'

def digitVal (c : Char) : Nat := c.toNat - '0'.toNat

def valOfDigits (ds : List Char) : Nat :=
  ds.foldl (fun a c => a * 10 + digitVal c) 0

/-- `std::stoi`: skip leading whitespace, optional sign, then a non-empty
run of decimal digits (further characters are ignored); `none` models the
`std::invalid_argument` it throws when no digits are found. -/
def stoi (l : List Char) : Option Int :=
  let l1 := l.dropWhile (fun c => isSpaceChar c)
  match l1 with
  | '-' :: rest =>
    if (rest.takeWhile Char.isDigit).isEmpty then none
    else some (-(valOfDigits (rest.takeWhile Char.isDigit) : Int))
  | '+' :: rest =>
    if (rest.takeWhile Char.isDigit).isEmpty then none
    else some ((valOfDigits (rest.takeWhile Char.isDigit) : Int))
  | _ =>
    if (l1.takeWhile Char.isDigit).isEmpty then none
    else some ((valOfDigits (l1.takeWhile Char.isDigit) : Int))

/-! ## Operand parsing (assembler.cpp lines 139-155) -/

def parseRegister (reg : List Char) : Except AsmError Int :=
  if reg.headD '\x00' ≠ 'R' ∧ reg.headD '\x00' ≠ 'r' then
    .error (.invalidRegister reg)
  else
    match stoi (reg.drop 1) with
    | some v => .ok v
    | none => .error (.stoiFailure (reg.drop 1))

def parseImmediate (imm : List Char) : Except AsmError Int :=
  if imm.headD '\x00' = '#' then
    match stoi (imm.drop 1) with
    | some v => .ok v
    | none => .error (.stoiFailure (imm.drop 1))
  else
    match stoi imm with
    | some v => .ok v
    | none => .error (.stoiFailure imm)

/-! ## Pass 1: label collection (assembler.cpp lines 158-187) -/

/-- `line.substr(0, line.find(';'))`, or the whole line without a `;`. -/
def stripComment (line : List Char) : List Char :=
  line.takeWhile (fun c => !(c == ';'))

def removeSpaces (l : List Char) : List Char :=
  l.filter (fun c => !(isSpaceChar c))

/-- `labels[label] = currentAddress`; lookup takes the most recent
binding, matching `std::map` overwrite semantics. -/
def labelUpdate (labels : List (List Char × Nat)) (k : List Char) (v : Nat) :
    List (List Char × Nat) :=
  (k, v) :: labels

def labelLookup (labels : List (List Char × Nat)) (k : List Char) : Option Nat :=
  (labels.find? (fun p => p.1 == k)).map (fun p => p.2)

def firstPassLine (acc : Nat × List (List Char × Nat)) (line : List Char) :
    Nat × List (List Char × Nat) :=
  if line.isEmpty || line.headD '\x00' == ';' then acc
  else
    let processedLine := stripComment line
    let step :=
      if processedLine.contains ':' then
        (labelUpdate acc.2 (removeSpaces (processedLine.takeWhile (fun c => !(c == ':')))) acc.1,
         (processedLine.dropWhile (fun c => !(c == ':'))).drop 1)
      else (acc.2, processedLine)
    if step.2.isEmpty then (acc.1, step.1) else (acc.1 + 4, step.1)

def firstPass (lines : List (List Char)) : List (List Char × Nat) :=
  (lines.foldl firstPassLine (0, [])).2

/-! ## Code generators (assembler.cpp lines 189-270) -/

/-- `static_cast<uint32_t>(v) << k` evaluated on `uint32_t`. -/
def u32shift (v : Int) (k : Nat) : Nat := ((intToUInt32 v) <<< k) % 2 ^ 32

def generateRType (op : List Char) (operands : List (List Char)) :
    Except AsmError Nat :=
  let instruction : Nat := ((mapIdx op).opcode <<< 26) % 2 ^ 32
  if operands.length ≥ 3 then
    match parseRegister (operands.getD 0 []) with
    | .error e => .error e
    | .ok r0 =>
      match parseRegister (operands.getD 1 []) with
      | .error e => .error e
      | .ok r1 =>
        match parseRegister (operands.getD 2 []) with
        | .error e => .error e
        | .ok r2 => .ok (instruction ||| u32shift r0 21 ||| u32shift r1 16 ||| u32shift r2 11)
  else if operands.length = 2 then
    match parseRegister (operands.getD 0 []) with
    | .error e => .error e
    | .ok r0 =>
      match parseRegister (operands.getD 1 []) with
      | .error e => .error e
      | .ok r1 => .ok (instruction ||| u32shift r0 21 ||| u32shift r1 16)
  else .ok instruction

def generateIType (labels : List (List Char × Nat)) (currentAddress : Nat)
    (op : List Char) (operands : List (List Char)) : Except AsmError Nat :=
  let instruction : Nat := ((mapIdx op).opcode <<< 26) % 2 ^ 32
  if op = "EXT".toList then .ok instruction
  else
    match parseRegister (operands.getD 0 []) with
    | .error e => .error e
    | .ok r0 =>
      match parseRegister (operands.getD 1 []) with
      | .error e => .error e
      | .ok r1 =>
        let base := instruction ||| u32shift r0 21 ||| u32shift r1 16
        match parseImmediate (operands.getD 2 []) with
        | .ok immediate => .ok (base ||| ((immediate % 65536).toNat))
        | .error _ =>
          match labelLookup labels (operands.getD 2 []) with
          | some addr =>
            let immediate : Int := (addr : Int) - ((currentAddress : Int) + 4)
            .ok (base ||| ((immediate % 65536).toNat))
          | none => .error (.unknownLabel (operands.getD 2 []))

def generateJType (labels : List (List Char × Nat)) (op : List Char)
    (operands : List (List Char)) : Except AsmError Nat :=
  let instruction : Nat := ((mapIdx op).opcode <<< 26) % 2 ^ 32
  match parseImmediate (operands.getD 0 []) with
  | .ok address => .ok (instruction ||| ((address % 0x4000000).toNat))
  | .error _ =>
    match labelLookup labels (operands.getD 0 []) with
    | some a => .ok (instruction ||| ((((a / 4 : Nat) : Int) % 0x4000000).toNat))
    | none => .error (.unknownLabel (operands.getD 0 []))

/-! ## Pass 2: code generation (assembler.cpp lines 272-422) -/

inductive SectionType where
  | SECTION_TEXT
  | SECTION_DATA
  | SECTION_BSS
deriving DecidableEq, Repr

structure AsmState where
  currentAddress : Nat
  labels : List (List Char × Nat)
  bytecode : List Nat
  textContent : List Nat
  dataContent : List Nat
  currentSection : SectionType
deriving Repr

/-- `stringstream >> token` repeated: whitespace-separated tokens. -/
def tokenize (l : List Char) : List (List Char) :=
  let acc := l.foldr
    (fun c acc =>
      if isSpaceChar c then
        (if acc.1.isEmpty then acc else ([], acc.1 :: acc.2))
      else (c :: acc.1, acc.2))
    (([] : List Char), ([] : List (List Char)))
  if acc.1.isEmpty then acc.2 else acc.1 :: acc.2

/-- Leading/trailing `" \t"` trim of pass 2. -/
def trimWS (l : List Char) : List Char :=
  ((l.dropWhile (fun c => c == ' ' || c == '\t')).reverse.dropWhile
    (fun c => c == ' ' || c == '\t')).reverse

def upCase (l : List Char) : List Char := l.map Char.toUpper

/-- Strip one trailing comma, as done to each operand token. -/
def stripComma (t : List Char) : List Char :=
  if t.getLast? == some ',' then t.dropLast else t

def pushCurrent (st : AsmState) (w : Nat) : AsmState :=
  match st.currentSection with
  | .SECTION_TEXT => { st with textContent := st.textContent ++ [w] }
  | .SECTION_DATA => { st with dataContent := st.dataContent ++ [w] }
  | .SECTION_BSS => st

/-- The `.word` loop: each remaining token is comma-stripped, parsed with
`stoi` (failure escapes the assembler), pushed into the `.data` section. -/
def wordLoop (st : AsmState) : List (List Char) → Except AsmError AsmState
  | [] => .ok st
  | v :: rest =>
    let v1 := stripComma v
    match stoi v1 with
    | none => .error (.stoiFailure v1)
    | some n =>
      wordLoop { st with dataContent := st.dataContent ++ [intToUInt32 n],
                         currentAddress := st.currentAddress + 4 } rest

def handleDirective (st : AsmState) (directive : List Char)
    (rest : List (List Char)) : Except AsmError AsmState :=
  if directive = ".text".toList then
    .ok { st with currentSection := .SECTION_TEXT, currentAddress := 0 }
  else if directive = ".data".toList then
    .ok { st with currentSection := .SECTION_DATA, currentAddress := 0x10000000 }
  else if directive = ".word".toList then wordLoop st rest
  else .ok st

def processLine (st : AsmState) (line : List Char) : Except AsmError AsmState :=
  if line.isEmpty || line.headD '\x00' == ';' then .ok st
  else
    let p1 := stripComment line
    let p2 :=
      if p1.contains ':' then (p1.dropWhile (fun c => !(c == ':'))).drop 1 else p1
    let processedLine := trimWS p2
    if processedLine.isEmpty then .ok st
    else
      let toks := tokenize processedLine
      let firstToken := toks.headD []
      if firstToken.headD '\x00' == '.' then
        handleDirective st firstToken (toks.drop 1)
      else
        let op := upCase firstToken
        let operands := (toks.drop 1).map stripComma
        let instrRes : Except AsmError Nat :=
          if op = "NOP".toList then .ok 0
          else
            match findInstr op with
            | none => .error (.unknownInstruction op)
            | some info =>
              match info.type with
              | .R_TYPE => generateRType op operands
              | .I_TYPE => generateIType st.labels st.currentAddress op operands
              | .J_TYPE => generateJType st.labels op operands
        match instrRes with
        | .error e => .error e
        | .ok instruction =>
          .ok (pushCurrent { st with currentAddress := st.currentAddress + 4 } instruction)

def secondPass : List (List Char) → AsmState → Except AsmError AsmState
  | [], st => .ok st
  | l :: ls, st =>
    match processLine st l with
    | .error e => .error e
    | .ok st1 => secondPass ls st1

/-- State at the start of pass 2: fresh sections, labels from pass 1,
`currentAddress = 0`, `bytecode.clear()`. -/
def initState (labels : List (List Char × Nat)) : AsmState :=
  { currentAddress := 0, labels := labels, bytecode := [],
    textContent := [], dataContent := [], currentSection := .SECTION_TEXT }

def assembleState (lines : List (List Char)) : Except AsmError AsmState :=
  secondPass lines (initState (firstPass lines))

/-- `Assembler::assemble`: both passes; the function's return value is the
member `bytecode` vector. -/
def assemble (lines : List (List Char)) : Except AsmError (List Nat) :=
  (assembleState lines).map (fun st => st.bytecode)

/-- The word sequence `writeOutput` writes to the binary file: text
section, then data section, then the leftover `bytecode` vector. -/
def outputImage (st : AsmState) : List Nat :=
  st.textContent ++ st.dataContent ++ st.bytecode

/-- Extract the success value of a fallible Except-valued computation. -/
def exceptOk {e a : Type} : Except e a → Bool
  | .ok _ => true
  | .error _ => false

/-- The word produced by a successful generator run (0 on failure). -/
def okWord : Except AsmError Nat → Nat
  | .ok w => w
  | .error _ => 0

/-! ## Bit-level helper lemmas -/

theorem lor_shiftRight (x y n : Nat) : (x ||| y) >>> n = (x >>> n) ||| (y >>> n) :=
  Nat.eq_of_testBit_eq fun i => by
    simp [Nat.testBit_shiftRight, Nat.testBit_or]

theorem shiftLeft_shiftRight_eq (x k n : Nat) : (x <<< k) >>> n = x * 2 ^ k / 2 ^ n := by
  rw [Nat.shiftLeft_eq, Nat.shiftRight_eq_div_pow]

theorem and31 (x : Nat) : x &&& 31 = x % 32 := by
  have h := Nat.and_pow_two_sub_one_eq_mod x 5
  norm_num at h
  exact h

theorem and63 (x : Nat) : x &&& 63 = x % 64 := by
  have h := Nat.and_pow_two_sub_one_eq_mod x 6
  norm_num at h
  exact h

theorem and65535 (x : Nat) : x &&& 65535 = x % 65536 := by
  have h := Nat.and_pow_two_sub_one_eq_mod x 16
  norm_num at h
  exact h

theorem and_jmask (x : Nat) : x &&& 67108863 = x % 67108864 := by
  have h := Nat.and_pow_two_sub_one_eq_mod x 26
  norm_num at h
  exact h

theorem getOpcode_pack (o a b c : Nat) (ho : o < 64) (ha : a < 32) (hb : b < 32)
    (hc : c < 32) : getOpcode (o <<< 26 ||| a <<< 21 ||| b <<< 16 ||| c <<< 11) = o := by
  unfold getOpcode
  simp only [lor_shiftRight, shiftLeft_shiftRight_eq]
  norm_num
  have e2 : a * 2097152 / 67108864 = 0 := by omega
  have e3 : b * 65536 / 67108864 = 0 := by omega
  have e4 : c * 2048 / 67108864 = 0 := by omega
  rw [e2, e3, e4, Nat.or_zero, Nat.or_zero, Nat.or_zero, and63]
  omega

theorem getRd_pack (o a b c : Nat) (ho : o < 64) (ha : a < 32) (hb : b < 32)
    (hc : c < 32) : getRd (o <<< 26 ||| a <<< 21 ||| b <<< 16 ||| c <<< 11) = a := by
  unfold getRd
  simp only [lor_shiftRight, shiftLeft_shiftRight_eq]
  norm_num
  have e3 : b * 65536 / 2097152 = 0 := by omega
  have e4 : c * 2048 / 2097152 = 0 := by omega
  rw [e3, e4, Nat.or_zero, Nat.or_zero, Nat.and_distrib_right, and31, and31]
  have e5 : o * 67108864 / 2097152 % 32 = 0 := by omega
  have e6 : a % 32 = a := by omega
  rw [e5, e6, Nat.zero_or]

theorem getRs_pack (o a b c : Nat) (ho : o < 64) (ha : a < 32) (hb : b < 32)
    (hc : c < 32) : getRs (o <<< 26 ||| a <<< 21 ||| b <<< 16 ||| c <<< 11) = b := by
  unfold getRs
  simp only [lor_shiftRight, shiftLeft_shiftRight_eq]
  norm_num
  have e4 : c * 2048 / 65536 = 0 := by omega
  rw [e4, Nat.or_zero, Nat.and_distrib_right, Nat.and_distrib_right, and31, and31, and31]
  have e5 : o * 67108864 / 65536 % 32 = 0 := by omega
  have e6 : a * 2097152 / 65536 % 32 = 0 := by omega
  have e7 : b % 32 = b := by omega
  rw [e5, e6, e7, Nat.zero_or, Nat.zero_or]

theorem getRt_pack (o a b c : Nat) (ho : o < 64) (ha : a < 32) (hb : b < 32)
    (hc : c < 32) : getRt (o <<< 26 ||| a <<< 21 ||| b <<< 16 ||| c <<< 11) = c := by
  unfold getRt
  simp only [lor_shiftRight, shiftLeft_shiftRight_eq]
  norm_num
  rw [Nat.and_distrib_right, Nat.and_distrib_right, Nat.and_distrib_right,
    and31, and31, and31, and31]
  have e5 : o * 67108864 / 2048 % 32 = 0 := by omega
  have e6 : a * 2097152 / 2048 % 32 = 0 := by omega
  have e7 : b * 65536 / 2048 % 32 = 0 := by omega
  have e8 : c % 32 = c := by omega
  rw [e5, e6, e7, e8, Nat.zero_or, Nat.zero_or, Nat.zero_or]

theorem low16_pack (o a b m : Nat) (hm : m < 65536) :
    (o <<< 26 ||| a <<< 21 ||| b <<< 16 ||| m) &&& 65535 = m := by
  rw [Nat.and_distrib_right, Nat.and_distrib_right, Nat.and_distrib_right,
    and65535, and65535, and65535, and65535]
  rw [Nat.shiftLeft_eq, Nat.shiftLeft_eq, Nat.shiftLeft_eq]
  norm_num
  have e1 : o * 67108864 % 65536 = 0 := by omega
  have e2 : a * 2097152 % 65536 = 0 := by omega
  rw [e1, e2, Nat.zero_or, Nat.zero_or]
  omega

theorem toSigned16_roundtrip (imm : Int) (h0 : -32768 ≤ imm) (h1 : imm < 32768) :
    toSigned16 ((imm % 65536).toNat) = imm := by
  unfold toSigned16
  have e0 : (0 : Int) ≤ imm % 65536 := Int.emod_nonneg _ (by norm_num)
  have e1 : imm % 65536 < 65536 := Int.emod_lt_of_pos _ (by norm_num)
  split <;> omega
/-- Claim C1 (code bug): the assembler table and the engine dispatch do
not agree on opcode numbering. -/
theorem claim1_table_engine_mismatch :
    findInstr "ANDI".toList = some ⟨"ANDI".toList, .I_TYPE, 19⟩ ∧
    findInstr "LW".toList = none ∧
    findInstr "SW".toList = none ∧
    findInstr "LB".toList = none ∧
    findInstr "SB".toList = none ∧
    findInstr "BEQ".toList = none ∧
    findInstr "BNE".toList = none ∧
    findInstr "RESET".toList = none ∧
    generateIType [] 0 "ANDI".toList ["R1".toList, "R2".toList, "#1".toList] =
      .ok 1277296641 ∧
    (iterState (loopIter ⟨fun i => if i = 0 then 1277296641 else 0,
      fun i => if i = 2 then 1 else 0, 0, true⟩)).regs 1 = 4294967294 ∧
    (4294967294 : Nat) ≠ 1 &&& 1 := by
  refine ⟨rfl, rfl, rfl, rfl, rfl, rfl, rfl, rfl, rfl, rfl, by decide⟩

/-- Claim C2 (code bug): assembling the four-line branch program fails. -/
theorem claim2_branch_program_fails :
    assemble
      [ "start:".toList
      , "  ADDI R1, R0, #5".toList
      , "  BEQ  R1, R0, end".toList
      , "  ADDI R1, R1, #1".toList
      , "end:".toList
      , "  EXT".toList ] =
      .error (.unknownInstruction "BEQ".toList) ∧
    (iterState (loopIter ⟨fun i =>
        if i = 1 then ((26 <<< 26) ||| (1 <<< 21) ||| (0 <<< 16) ||| 4 : Nat) else 0,
      fun _ => 0, 4, true⟩)).pc = 8 ∧
    (8 : Nat) ≠ 12 := by
  refine ⟨rfl, rfl, by decide⟩

/-- Claim C3 (code bug): memory guard admits translated addresses past
the physical capacity. -/
theorem claim3_memory_guard_mismatch :
    readMemory (fun _ => 0) 1048576 = .ok 0 ∧
    exceptOk (writeMemory (fun _ => 0) 1048576 7) = true ∧
    MEMORY_SIZE = 1048576 ∧
    1048576 < DATA_SECTION_START ∧
    memWords ≤ 1048576 / 4 ∧
    readMemory (fun _ => 0) 4194304 = .error (.memOutOfBounds 4194304) := by
  refine ⟨rfl, rfl, rfl, by decide, by decide, rfl⟩

/-- Claim C9: register tokens are validated only by the leading letter
and packed without masking. -/
theorem claim9_register_overflow :
    parseRegister "R32".toList = .ok 32 ∧
    parseRegister "r32".toList = .ok 32 ∧
    parseRegister "x1".toList = .error (.invalidRegister "x1".toList) ∧
    generateRType "ADD".toList ["R32".toList, "R1".toList, "R2".toList] = .ok 67178496 ∧
    (mapIdx "ADD".toList).opcode = 0 ∧
    getOpcode 67178496 = 1 ∧
    getRd 67178496 = 0 ∧
    getRs 67178496 = 1 ∧
    getRt 67178496 = 2 ∧
    (1 : Nat) ≠ 0 ∧
    (0 : Nat) ≠ 32 := by
  refine ⟨rfl, rfl, rfl, rfl, rfl, rfl, rfl, rfl, rfl, by decide, by decide⟩

/-- Claim C4 (counterexample): an out-of-range PC makes the exception
escape `run` (`thrown`), and a PC past the end of the loaded program but
inside memory is not faulted at all. -/
theorem claim4_pc_fault_escapes :
    run ⟨fun i => if i = 0 then ((29 <<< 26) ||| 0x3FFFFFF : Nat) else 0,
      fun _ => 0, 0, false⟩ 3 = .thrown .pcOutOfBounds ∧
    isNext (loopIter ⟨fun _ => 0, fun _ => 0, 0, true⟩) = true := by
  refine ⟨rfl, rfl⟩

/-- Claim C4 (amended): the PC bounds check compares against the memory
word capacity, and an out-of-range PC yields the `thrown` outcome. -/
theorem claim4_pc_check_amended (s : VMState) (fuel : Nat)
    (hrun : s.running = true) (hpc : memWords ≤ s.pc / 4) :
    runLoop (fuel + 1) s = .thrown .pcOutOfBounds := by
  simp [runLoop, loopIter, hrun, hpc]

theorem claim4_pc_check_amended_witness :
    runLoop 1 ⟨fun _ => 0, fun _ => 0, 1048576, true⟩ = .thrown .pcOutOfBounds :=
  claim4_pc_check_amended ⟨fun _ => 0, fun _ => 0, 1048576, true⟩ 0 rfl (by decide)

/-- Claim C7: after every retired instruction, register 0 is zero. -/
theorem claim7_reg0_zero (s : VMState) (h : isNext (loopIter s) = true) :
    (iterState (loopIter s)).regs 0 = 0 := by
  unfold loopIter at *
  by_cases hpc : s.pc / 4 ≥ memWords
  · rw [if_pos hpc] at h
    simp [isNext] at h
  · rw [if_neg hpc] at h ⊢
    cases hd : execDispatch s (s.mem (s.pc / 4)) with
    | error e => rw [hd] at h; simp [isNext] at h
    | ok s1 => simp [iterState, regWrite]

theorem claim7_reg0_zero_witness :
    isNext (loopIter ⟨fun i => if i = 0 then ((14 <<< 26) ||| (1 <<< 16) ||| 5 : Nat) else 0,
      fun i => if i = 1 then 7 else 0, 0, true⟩) = true ∧
    (iterState (loopIter ⟨fun i => if i = 0 then ((14 <<< 26) ||| (1 <<< 16) ||| 5 : Nat) else 0,
      fun i => if i = 1 then 7 else 0, 0, true⟩)).regs 0 = 0 :=
  ⟨rfl, claim7_reg0_zero _ rfl⟩

/-- Claim C6: DIV with zero divisor register and DIVI with zero immediate
fault with a division-by-zero diagnostic, halting with registers intact. -/
theorem claim6_div_by_zero :
    (∀ (s : VMState) (fuel : Nat), s.running = true → s.pc / 4 < memWords →
      getOpcode (s.mem (s.pc / 4)) = 3 → s.regs (getRt (s.mem (s.pc / 4))) = 0 →
      runLoop (fuel + 1) s = .faulted .divByZero s.pc { s with running := false }) ∧
    (∀ (s : VMState) (fuel : Nat), s.running = true → s.pc / 4 < memWords →
      getOpcode (s.mem (s.pc / 4)) = 17 → getImmediate (s.mem (s.pc / 4)) = 0 →
      runLoop (fuel + 1) s = .faulted .divByZero s.pc { s with running := false }) := by
  constructor
  · intro s fuel hrun hpc hop hz
    have hd : execDispatch s (s.mem (s.pc / 4)) = .error .divByZero := by
      simp [execDispatch, executeRType, hop, hz]
    simp [runLoop, loopIter, hrun, hd, Nat.not_le.mpr hpc]
  · intro s fuel hrun hpc hop hz
    have hd : execDispatch s (s.mem (s.pc / 4)) = .error .divByZero := by
      simp [execDispatch, executeIType, hop, hz]
    simp [runLoop, loopIter, hrun, hd, Nat.not_le.mpr hpc]

theorem claim6_div_by_zero_witness :
    runLoop 1 ⟨fun i => if i = 0 then ((3 <<< 26) ||| (2 <<< 21) ||| (3 <<< 16) ||| (4 <<< 11) : Nat) else 0,
      fun i => if i = 2 then 99 else 0, 0, true⟩ =
    .faulted .divByZero 0 { (⟨fun i => if i = 0 then ((3 <<< 26) ||| (2 <<< 21) ||| (3 <<< 16) ||| (4 <<< 11) : Nat) else 0,
      fun i => if i = 2 then 99 else 0, 0, true⟩ : VMState) with running := false } ∧
    ((⟨fun i => if i = 0 then ((3 <<< 26) ||| (2 <<< 21) ||| (3 <<< 16) ||| (4 <<< 11) : Nat) else 0,
      fun i => if i = 2 then 99 else 0, 0, true⟩ : VMState)).regs 2 = 99 :=
  ⟨claim6_div_by_zero.1 _ 0 rfl (by decide) rfl rfl, rfl⟩

/-- Claim C5: the engine's branch and jump PC arithmetic. -/
theorem claim5_control_flow_arithmetic :
    (∀ (s : VMState) (w : Nat), getOpcode w = 26 → s.regs (getRd w) = s.regs (getRs w) →
      executeIType s w =
        .ok { s with pc := intToUInt32 ((s.pc : Int) + (getImmediate w - 4) * 4) }) ∧
    (∀ (s : VMState) (w : Nat), getOpcode w = 27 → s.regs (getRd w) ≠ s.regs (getRs w) →
      executeIType s w =
        .ok { s with pc := intToUInt32 ((s.pc : Int) + getImmediate w * 4) }) ∧
    (∀ (s : VMState) (w : Nat), getOpcode w = 29 →
      executeJType s w =
        { s with pc := intToUInt32 ((getJumpAddress w : Int) * 4 - 8) }) ∧
    (∀ (s : VMState) (w : Nat), getOpcode w = 30 →
      executeJType s w =
        { s with regs := regWrite s.regs 31 ((s.pc + 4) % 2 ^ 32),
                 pc := intToUInt32 ((getJumpAddress w : Int) * 4 - 4) }) := by
  refine ⟨?_, ?_, ?_, ?_⟩
  · intro s w hop heq
    simp [executeIType, hop, heq]
  · intro s w hop hne
    simp [executeIType, hop, hne]
  · intro s w hop
    have hle : getJumpAddress w ≤ 67108863 := Nat.and_le_right
    have hlt : getJumpAddress w * 4 < 2 ^ 32 := by omega
    simp only [executeJType, hop]
    rw [Nat.mod_eq_of_lt hlt]
    norm_cast
  · intro s w hop
    have hle : getJumpAddress w ≤ 67108863 := Nat.and_le_right
    have hlt : getJumpAddress w * 4 < 2 ^ 32 := by omega
    simp only [executeJType, hop]
    rw [Nat.mod_eq_of_lt hlt]
    norm_cast

theorem claim5_control_flow_arithmetic_witness :
    executeIType ⟨fun _ => 0, fun _ => 5, 100, true⟩
      ((26 <<< 26) ||| (1 <<< 21) ||| (3 <<< 16) ||| 6) =
      .ok ⟨fun _ => 0, fun _ => 5, 108, true⟩ ∧
    executeIType ⟨fun _ => 0, fun i => i, 100, true⟩
      ((27 <<< 26) ||| (1 <<< 21) ||| (3 <<< 16) ||| 6) =
      .ok ⟨fun _ => 0, fun i => i, 124, true⟩ ∧
    executeJType ⟨fun _ => 0, fun _ => 0, 100, true⟩ ((29 <<< 26) ||| 50) =
      ⟨fun _ => 0, fun _ => 0, 192, true⟩ ∧
    executeJType ⟨fun _ => 0, fun _ => 0, 100, true⟩ ((30 <<< 26) ||| 50) =
      ⟨fun _ => 0, fun j => if j = 31 then 104 else 0, 196, true⟩ :=
  ⟨claim5_control_flow_arithmetic.1 _ _ rfl rfl,
   claim5_control_flow_arithmetic.2.1 _ _ rfl (by decide),
   claim5_control_flow_arithmetic.2.2.1 _ _ rfl,
   claim5_control_flow_arithmetic.2.2.2 _ _ rfl⟩

theorem intToUInt32_small (r : Int) (h0 : 0 ≤ r) (h1 : r < 2 ^ 32) :
    intToUInt32 r = r.toNat := by
  unfold intToUInt32
  have h2 : r % 2 ^ 32 = r := by omega
  rw [h2]

theorem u32shift_small (r : Int) (k : Nat) (h0 : 0 ≤ r) (h1 : r < 32) (hk : k ≤ 21) :
    u32shift r k = r.toNat <<< k := by
  unfold u32shift
  rw [intToUInt32_small r h0 (by omega)]
  apply Nat.mod_eq_of_lt
  rw [Nat.shiftLeft_eq]
  have h2 : (2 : Nat) ^ k ≤ 2 ^ 21 := Nat.pow_le_pow_right (by norm_num) hk
  have h3 : r.toNat ≤ 31 := by omega
  calc r.toNat * 2 ^ k ≤ 31 * 2 ^ 21 := Nat.mul_le_mul h3 h2
    _ < 2 ^ 32 := by norm_num

theorem opcodeShift_small (o : Nat) (h : o < 64) : (o <<< 26) % 2 ^ 32 = o <<< 26 := by
  apply Nat.mod_eq_of_lt
  rw [Nat.shiftLeft_eq]
  calc o * 2 ^ 26 ≤ 63 * 2 ^ 26 := Nat.mul_le_mul_right _ (by omega)
    _ < 2 ^ 32 := by norm_num

/-- Claim C8: R-type encode/decode round-trip and sign-extended immediate
round-trip. -/
theorem claim8_roundtrip :
    (∀ (op t0 t1 t2 : List Char) (rd rs rt : Int),
      (mapIdx op).opcode ≤ 13 →
      parseRegister t0 = .ok rd → 0 ≤ rd → rd < 32 →
      parseRegister t1 = .ok rs → 0 ≤ rs → rs < 32 →
      parseRegister t2 = .ok rt → 0 ≤ rt → rt < 32 →
      generateRType op [t0, t1, t2] = .ok (okWord (generateRType op [t0, t1, t2])) ∧
      getOpcode (okWord (generateRType op [t0, t1, t2])) = (mapIdx op).opcode ∧
      getRd (okWord (generateRType op [t0, t1, t2])) = rd.toNat ∧
      getRs (okWord (generateRType op [t0, t1, t2])) = rs.toNat ∧
      getRt (okWord (generateRType op [t0, t1, t2])) = rt.toNat) ∧
    (∀ (op t0 t1 t2 : List Char) (labels : List (List Char × Nat)) (ca : Nat)
       (rd rs imm : Int),
      op ≠ "EXT".toList →
      (mapIdx op).opcode ≤ 63 →
      parseRegister t0 = .ok rd → 0 ≤ rd → rd < 32 →
      parseRegister t1 = .ok rs → 0 ≤ rs → rs < 32 →
      parseImmediate t2 = .ok imm → -32768 ≤ imm → imm < 32768 →
      generateIType labels ca op [t0, t1, t2] =
        .ok (okWord (generateIType labels ca op [t0, t1, t2])) ∧
      getImmediate (okWord (generateIType labels ca op [t0, t1, t2])) = imm) := by
  constructor
  · intro op t0 t1 t2 rd rs rt hop hp0 h0a h0b hp1 h1a h1b hp2 h2a h2b
    have hW : generateRType op [t0, t1, t2] =
        .ok (((mapIdx op).opcode <<< 26) % 2 ^ 32 |||
          u32shift rd 21 ||| u32shift rs 16 ||| u32shift rt 11) := by
      unfold generateRType
      simp [hp0, hp1, hp2]
    have hw : okWord (generateRType op [t0, t1, t2]) =
        (mapIdx op).opcode <<< 26 ||| rd.toNat <<< 21 ||| rs.toNat <<< 16 |||
          rt.toNat <<< 11 := by
      rw [hW]
      simp only [okWord]
      rw [opcodeShift_small _ (by omega), u32shift_small rd 21 h0a h0b (by norm_num),
        u32shift_small rs 16 h1a h1b (by norm_num), u32shift_small rt 11 h2a h2b (by norm_num)]
    refine ⟨by rw [hW]; simp only [okWord], ?_, ?_, ?_, ?_⟩
    · rw [hw]
      exact getOpcode_pack _ _ _ _ (by omega) (by omega) (by omega) (by omega)
    · rw [hw]
      exact getRd_pack _ _ _ _ (by omega) (by omega) (by omega) (by omega)
    · rw [hw]
      exact getRs_pack _ _ _ _ (by omega) (by omega) (by omega) (by omega)
    · rw [hw]
      exact getRt_pack _ _ _ _ (by omega) (by omega) (by omega) (by omega)
  · intro op t0 t1 t2 labels ca rd rs imm hne hop hp0 h0a h0b hp1 h1a h1b hpi hi0 hi1
    have hW : generateIType labels ca op [t0, t1, t2] =
        .ok (((mapIdx op).opcode <<< 26) % 2 ^ 32 |||
          u32shift rd 21 ||| u32shift rs 16 ||| (imm % 65536).toNat) := by
      unfold generateIType
      rw [if_neg hne]
      simp [hp0, hp1, hpi]
    have hw : okWord (generateIType labels ca op [t0, t1, t2]) =
        (mapIdx op).opcode <<< 26 ||| rd.toNat <<< 21 ||| rs.toNat <<< 16 |||
          (imm % 65536).toNat := by
      rw [hW]
      simp only [okWord]
      rw [opcodeShift_small _ (by omega), u32shift_small rd 21 h0a h0b (by norm_num),
        u32shift_small rs 16 h1a h1b (by norm_num)]
    refine ⟨by rw [hW]; simp only [okWord], ?_⟩
    rw [hw]
    unfold getImmediate
    rw [low16_pack _ _ _ _ (by omega)]
    exact toSigned16_roundtrip imm hi0 hi1

theorem claim8_roundtrip_witness :
    (generateRType "ADD".toList ["R1,".toList, "R2,".toList, "R3".toList] =
      .ok (okWord (generateRType "ADD".toList ["R1,".toList, "R2,".toList, "R3".toList])) ∧
      getOpcode (okWord (generateRType "ADD".toList ["R1,".toList, "R2,".toList, "R3".toList])) =
        (mapIdx "ADD".toList).opcode ∧
      getRd (okWord (generateRType "ADD".toList ["R1,".toList, "R2,".toList, "R3".toList])) =
        (1 : Int).toNat ∧
      getRs (okWord (generateRType "ADD".toList ["R1,".toList, "R2,".toList, "R3".toList])) =
        (2 : Int).toNat ∧
      getRt (okWord (generateRType "ADD".toList ["R1,".toList, "R2,".toList, "R3".toList])) =
        (3 : Int).toNat) ∧
    getImmediate (okWord (generateIType [] 0 "ADDI".toList
      ["R1".toList, "R0".toList, "#-1".toList])) = -1 :=
  ⟨claim8_roundtrip.1 "ADD".toList "R1,".toList "R2,".toList "R3".toList 1 2 3
      (by decide) rfl (by decide) (by decide) rfl (by decide) (by decide) rfl
      (by decide) (by decide),
   (claim8_roundtrip.2 "ADDI".toList "R1".toList "R0".toList "#-1".toList [] 0 1 0 (-1)
      (by decide) (by decide) rfl (by decide) (by decide) rfl (by decide) (by decide)
      rfl (by decide) (by decide)).2⟩

theorem pushCurrent_bytecode (st : AsmState) (w : Nat) :
    (pushCurrent st w).bytecode = st.bytecode := by
  unfold pushCurrent
  cases st.currentSection <;> rfl

theorem wordLoop_bytecode : ∀ (toks : List (List Char)) (st st1 : AsmState),
    wordLoop st toks = .ok st1 → st1.bytecode = st.bytecode := by
  intro toks
  induction toks with
  | nil =>
    intro st st1 h
    unfold wordLoop at h
    cases h
    rfl
  | cons v rest ih =>
    intro st st1 h
    unfold wordLoop at h
    dsimp only at h
    split at h
    · cases h
    · rw [ih _ _ h]

theorem handleDirective_bytecode (st : AsmState) (d : List Char)
    (rest : List (List Char)) (st1 : AsmState)
    (h : handleDirective st d rest = .ok st1) : st1.bytecode = st.bytecode := by
  unfold handleDirective at h
  split at h
  · cases h; rfl
  · split at h
    · cases h; rfl
    · split at h
      · exact wordLoop_bytecode _ _ _ h
      · cases h; rfl

theorem processLine_bytecode (st : AsmState) (line : List Char) (st1 : AsmState)
    (h : processLine st line = .ok st1) : st1.bytecode = st.bytecode := by
  unfold processLine at h
  dsimp only at h
  repeat' split at h
  all_goals first
    | (cases h; rfl)
    | (cases h; rw [pushCurrent_bytecode])
    | exact handleDirective_bytecode _ _ _ _ h
    | cases h

theorem secondPass_bytecode : ∀ (lines : List (List Char)) (st st1 : AsmState),
    secondPass lines st = .ok st1 → st1.bytecode = st.bytecode := by
  intro lines
  induction lines with
  | nil =>
    intro st st1 h
    unfold secondPass at h
    cases h
    rfl
  | cons l ls ih =>
    intro st st1 h
    unfold secondPass at h
    split at h
    · cases h
    · rename_i st2 heq
      rw [ih _ _ h, processLine_bytecode _ _ _ heq]

/-- Claim C10: the public assemble operation always returns an empty word
sequence; emitted words live only in the section buffers. -/
theorem claim10_assemble_empty (lines : List (List Char)) (r : List Nat)
    (h : assemble lines = .ok r) : r = [] := by
  unfold assemble assembleState at h
  cases hs : secondPass lines (initState (firstPass lines)) with
  | error e =>
    rw [hs] at h
    cases h
  | ok st =>
    rw [hs] at h
    cases h
    exact secondPass_bytecode _ _ _ hs

theorem claim10_assemble_empty_witness :
    assemble ["ADD R1, R2, R3".toList] = .ok [] ∧ ([] : List Nat) = [] :=
  ⟨rfl, claim10_assemble_empty ["ADD R1, R2, R3".toList] [] rfl⟩
